import Mathlib

/-!
Shallow embedding of `src/encryption_experiment.py`.

Bytes are modelled as natural numbers (well-formed bytes are `< 256`);
byte strings are `List Nat`.  A record's three text fields are modelled
by their UTF-8 byte strings.  Randomness (AES-GCM nonces, per-row AES
keys, OAEP padding) is modelled by explicit tapes passed as function
arguments: the i-th draw of the tape models the i-th call to the
library's random generator.
-/

namespace EncryptionExperiment

/-- Modelled from the spec: the AEAD primitive (pycryptodome `AES.new(key,
AES.MODE_GCM)`, an external library whose code is not under `src/`).  The
spec describes it as "an authenticated symmetric cipher (AEAD) producing
ciphertext + tag, with a nonce per encryption".  It is idealised here as a
deterministic keystream indexed by (key, nonce, position); the ciphertext
is the plaintext XORed with the keystream, so decryption with the same key
and nonce is the inverse.  `ksByte key nonce i` is the i-th keystream
byte. -/
def ksByte (key nonce : List Nat) (i : Nat) : Nat :=
  (key.foldr (fun a b => a + 3 * b) 0 + 5 * nonce.foldr (fun a b => a + 7 * b) 0
    + 11 * i + 13) % 256

/-- XOR the byte string `l` with the keystream starting at position `i`.
Applied to a plaintext this is GCM encryption's ciphertext; applied to a
ciphertext it is decryption. -/
def xorKs (key nonce : List Nat) : Nat → List Nat → List Nat
  | _, [] => []
  | i, b :: bs => (b ^^^ ksByte key nonce i) :: xorKs key nonce (i + 1) bs

/-- XOR-fold of the bytes of a list at positions congruent to `j` mod 16,
the list starting at absolute position `i`.  Building block of the
idealised 16-byte GCM authentication tag: any single-bit change of the
input changes exactly one fold. -/
def foldXorAt (j : Nat) : Nat → List Nat → Nat
  | _, [] => 0
  | i, b :: bs => (if i % 16 = j then b else 0) ^^^ foldXorAt j (i + 1) bs

/-- Modelled from the spec: the 16-byte GCM authentication tag over a
ciphertext, keyed by (key, nonce).  Tag byte `j` folds the ciphertext
bytes at positions ≡ j (mod 16) and masks them with the keystream, so
the tag detects any single-bit change of the ciphertext. -/
def gcmTag (key nonce ct : List Nat) : List Nat :=
  (List.range 16).map fun j => foldXorAt j 0 ct ^^^ ksByte key nonce (1000 + j)

/-- Modelled from the spec: the exceptions the crypto library raises during
`reveal`.  pycryptodome signals both an empty GCM nonce and a failed MAC
check with `ValueError`; the source has no error classes of its own. -/
inductive PyError where
  | valueError (msg : String)
deriving DecidableEq, Repr

/-- Field encryption as in `run_aes` / `run_hybrid` (src lines 152–155,
209–211): encrypt the field, then store `nonce ++ tag ++ ciphertext`.
pycryptodome's GCM default nonce length is 16 bytes; the nonce is a tape
draw passed in explicitly. -/
def protectField (key nonce pt : List Nat) : List Nat :=
  nonce ++ gcmTag key nonce (xorKs key nonce 0 pt) ++ xorKs key nonce 0 pt

/-- Field decryption as in the read loops (src lines 172–179, 239–243):
`nonce = cell[:16]`, `tag = cell[16:32]`, `ciphertext = cell[32:]`, then
`AES.new(key, GCM, nonce=nonce).decrypt_and_verify(ciphertext, tag)`.
The library raises `ValueError` on an empty nonce and on MAC mismatch. -/
def revealField (key cell : List Nat) : Except PyError (List Nat) :=
  let nonce := cell.take 16
  let tag := (cell.drop 16).take 16
  let ct := cell.drop 32
  if nonce.length = 0 then .error (.valueError "Nonce cannot be empty")
  else if tag = gcmTag key nonce ct then .ok (xorKs key nonce 0 ct)
  else .error (.valueError "MAC check failed")

/-! Basic lemmas about the keystream cipher. -/

theorem xorKs_length (key nonce : List Nat) :
    ∀ (i : Nat) (l : List Nat), (xorKs key nonce i l).length = l.length := by
  intro i l
  induction l generalizing i with
  | nil => rfl
  | cons b bs ih => simp [xorKs, ih]

theorem xorKs_xorKs (key nonce : List Nat) :
    ∀ (i : Nat) (l : List Nat), xorKs key nonce i (xorKs key nonce i l) = l := by
  intro i l
  induction l generalizing i with
  | nil => rfl
  | cons b bs ih =>
      simp [xorKs, ih, Nat.xor_assoc]

theorem gcmTag_length (key nonce ct : List Nat) : (gcmTag key nonce ct).length = 16 := by
  simp [gcmTag]

theorem protectField_take_16 (key nonce pt : List Nat) (hn : nonce.length = 16) :
    (protectField key nonce pt).take 16 = nonce := by
  unfold protectField
  rw [List.append_assoc, List.take_left' hn]

theorem protectField_tag (key nonce pt : List Nat) (hn : nonce.length = 16) :
    ((protectField key nonce pt).drop 16).take 16
      = gcmTag key nonce (xorKs key nonce 0 pt) := by
  unfold protectField
  rw [List.append_assoc, List.drop_left' hn, List.take_left' (gcmTag_length key nonce _)]

theorem protectField_ct (key nonce pt : List Nat) (hn : nonce.length = 16) :
    (protectField key nonce pt).drop 32 = xorKs key nonce 0 pt := by
  unfold protectField
  refine List.drop_left' ?_
  simp [hn, gcmTag_length]

theorem protectField_length (key nonce pt : List Nat) (hn : nonce.length = 16) :
    (protectField key nonce pt).length = 32 + pt.length := by
  unfold protectField
  simp [hn, gcmTag_length, xorKs_length]
  omega

/-- Round trip at the field level: splitting at offsets 16/32 and
decrypting with the embedded nonce recovers the plaintext. -/
theorem revealField_protectField (key nonce pt : List Nat) (hn : nonce.length = 16) :
    revealField key (protectField key nonce pt) = .ok pt := by
  unfold revealField
  rw [protectField_take_16 key nonce pt hn, protectField_tag key nonce pt hn,
    protectField_ct key nonce pt hn]
  simp [hn, xorKs_xorKs]

/-! The data model: records and the per-strategy encoded rows. -/

/-- A generated record, as produced by `generate_dummy_data` (src lines
105–111): a `(name, email, notes)` tuple of text fields, modelled by the
UTF-8 byte strings of the three fields. -/
structure PatientRecord where
  name : List Nat
  email : List Nat
  notes : List Nat
deriving DecidableEq, Repr

/-- A row of the `patient_aes` table: the three encoded field blobs
(src line 156). -/
structure AesRow where
  name : List Nat
  email : List Nat
  notes : List Nat
deriving DecidableEq, Repr

/-- `run_baseline` inserts the record's fields unchanged (src line 123);
Plaintext `protect` is the identity. -/
def baselineProtect (r : PatientRecord) : PatientRecord := r

/-- `run_baseline` fetches the stored text back unchanged (src line 130);
Plaintext `reveal` is the identity. -/
def baselineReveal (r : PatientRecord) : PatientRecord := r

/-- Encryption of one record in `run_aes` (src lines 148–156): each of the
three fields is protected under the shared `static_key`; record `i` uses
nonce-tape draws `3*i`, `3*i+1`, `3*i+2` (one fresh nonce per
field-encryption call). -/
def aesEncRow (key : List Nat) (ns : Nat → List Nat) (i : Nat) (r : PatientRecord) :
    AesRow :=
  { name := protectField key (ns (3 * i)) r.name
    email := protectField key (ns (3 * i + 1)) r.email
    notes := protectField key (ns (3 * i + 2)) r.notes }

/-- The write-phase loop of `run_aes` (src lines 148–156): `encrypted_rows`
built record by record, the counter being the record's position. -/
def aesEncRows (key : List Nat) (ns : Nat → List Nat) : Nat → List PatientRecord → List AesRow
  | _, [] => []
  | i, r :: rs => aesEncRow key ns i r :: aesEncRows key ns (i + 1) rs

/-- The list of `EncodedField` blobs held by one stored AES row, in column
order `(name, email, notes)`. -/
def aesRowFields (row : AesRow) : List (List Nat) :=
  [row.name, row.email, row.notes]

/-- Total number of `EncodedField` blobs produced for a batch. -/
def totalEncodedFields (rows : List AesRow) : Nat :=
  (rows.map fun r => (aesRowFields r).length).sum

/-- Decoding of one fetched AES row (src lines 169–179): the cells are
decrypted in order; the `try` wraps the whole per-cell loop, so the first
failing cell aborts the row. -/
def decodeAesRow (key : List Nat) (row : AesRow) :
    Except PyError (List Nat × List Nat × List Nat) := do
  let n ← revealField key row.name
  let e ← revealField key row.email
  let t ← revealField key row.notes
  return (n, e, t)

/-- Whether a decode succeeded. -/
def decodeOk {α : Type} (x : Except PyError α) : Bool :=
  match x with
  | .ok _ => true
  | .error _ => false

/-- The read loop of `run_aes` (src lines 169–181), state-free denotation:
each row's decode result is computed and discarded (`except: continue`);
the loop binds no state that survives it, so it denotes `()`. -/
def readPhaseAes (key : List Nat) : List AesRow → Unit
  | [] => ()
  | r :: rs =>
      let _ := decodeAesRow key r
      readPhaseAes key rs

/-- Modelled from the spec: the per-row skip counter required by §7/§8
("must be internally counted so tests can assert on skip counts").  The
source maintains no such counter; this is the derived count of fetched
rows whose decode fails. -/
def skippedAes (key : List Nat) (rows : List AesRow) : Nat :=
  (rows.filter fun r => decodeOk (decodeAesRow key r) = false).length

/-- Per-row decode outcome trace of a read loop: `true` for a row whose
decode succeeds, `false` for a skipped row. -/
def readOutcomes {ρ : Type} (dec : ρ → Except PyError (List Nat × List Nat × List Nat))
    (rows : List ρ) : List Bool :=
  rows.map fun r => decodeOk (dec r)

/-! The hybrid (AES + RSA) strategy. -/

/-- Modelled from the spec: the RSA key pair of `run_hybrid` (pycryptodome
`RSA.generate(2048)` with `PKCS1_OAEP`, an external library not under
`src/`).  The pair is idealised as a shared mask; the public operation
XORs the key bytes with the mask and the private operation inverts it. -/
structure RSAKeyPair where
  mask : Nat
deriving DecidableEq, Repr

/-- Modelled from the spec: OAEP key wrapping (`rsa_enc.encrypt(row_key)`,
src line 214) under the run's public key.  A 2048-bit RSA-OAEP ciphertext
is a fixed 256-byte blob; the randomised padding is a tape draw `rpad`.
The blob records the key length, the masked key bytes, and padding. -/
def rsaWrap (kp : RSAKeyPair) (rpad : Nat) (k : List Nat) : List Nat :=
  k.length :: (k.map (fun b => b ^^^ kp.mask % 256) ++ List.replicate (255 - k.length) (rpad % 256))

/-- Modelled from the spec: OAEP key unwrapping (`rsa_dec.decrypt(...)`,
src line 234) with the private key.  The library raises `ValueError` when
the blob's length is not the modulus size. -/
def rsaUnwrap (kp : RSAKeyPair) (blob : List Nat) : Except PyError (List Nat) :=
  if blob.length = 256 then
    .ok ((blob.tail.take (blob.headD 0)).map fun b => b ^^^ kp.mask % 256)
  else .error (.valueError "Ciphertext with incorrect length.")

/-- A row of the `patient_hybrid` table: three encoded field blobs plus the
wrapped per-row key (`enc_key` column, src line 217). -/
structure HybridRow where
  name : List Nat
  email : List Nat
  notes : List Nat
  encKey : List Nat
deriving DecidableEq, Repr

/-- Encryption of one record in `run_hybrid` (src lines 202–217): a unique
AES key for this row encrypts the three fields exactly as in `run_aes`,
then that key is wrapped under the run's RSA public key and stored
alongside. -/
def hybridEncRow (kp : RSAKeyPair) (rowKey : List Nat) (ns : Nat → List Nat) (i rpad : Nat)
    (r : PatientRecord) : HybridRow :=
  { name := protectField rowKey (ns (3 * i)) r.name
    email := protectField rowKey (ns (3 * i + 1)) r.email
    notes := protectField rowKey (ns (3 * i + 2)) r.notes
    encKey := rsaWrap kp rpad rowKey }

/-- The write-phase loop of `run_hybrid` (src lines 202–217): record `i`
draws its fresh row key from `keySrc i` and its OAEP padding from
`rpadSrc i`. -/
def hybridEncRows (kp : RSAKeyPair) (keySrc : Nat → List Nat) (ns : Nat → List Nat)
    (rpadSrc : Nat → Nat) : Nat → List PatientRecord → List HybridRow
  | _, [] => []
  | i, r :: rs =>
      hybridEncRow kp (keySrc i) ns i (rpadSrc i) r
        :: hybridEncRows kp keySrc ns rpadSrc (i + 1) rs

/-- Decoding of one fetched hybrid row (src lines 230–243): unwrap the
row's key with the RSA private key, then decrypt the three cells with the
recovered key; the `try` wraps both steps. -/
def decodeHybridRow (kp : RSAKeyPair) (row : HybridRow) :
    Except PyError (List Nat × List Nat × List Nat) := do
  let rowKey ← rsaUnwrap kp row.encKey
  let n ← revealField rowKey row.name
  let e ← revealField rowKey row.email
  let t ← revealField rowKey row.notes
  return (n, e, t)

/-! The benchmark orchestrator (`main`, src lines 252–319). -/

/-- The TPS computation of the results table (src line 312):
`tps = count / (w/1000) if w > 0 else 0`.  Timings, Python floats, are
modelled as rationals. -/
def computeTps (count : Nat) (w : ℚ) : ℚ :=
  if 0 < w then (count : ℚ) / (w / 1000) else 0

/-- A `mysql.connector.Error`, the exception class caught by
`get_exact_storage_size` (src line 102). -/
inductive DBErr where
  | mk (msg : String)
deriving DecidableEq, Repr

/-- Python 3 `round` to 2 decimal places on an exact value: round half to
even (banker's rounding). -/
def pyRound2 (q : ℚ) : ℚ :=
  (if q * 100 - ⌊q * 100⌋ < 1 / 2 then (⌊q * 100⌋ : ℚ)
   else if 1 / 2 < q * 100 - ⌊q * 100⌋ then (⌊q * 100⌋ : ℚ) + 1
   else if 2 ∣ ⌊q * 100⌋ then (⌊q * 100⌋ : ℚ) else (⌊q * 100⌋ : ℚ) + 1) / 100

/-- `get_exact_storage_size` (src lines 80–103) after the SQL round trip:
the input is the outcome of running the `SUM(OCTET_LENGTH(...))` query and
`fetchone()` — a database error, or an optional row holding an optional
sum (`none` models SQL `NULL`, returned for an empty table).  On a
database error the function returns `0.0`; otherwise
`size_bytes = result[0] if result and result[0] else 0` (Python truthiness:
a missing row, a `NULL` sum and a zero sum all give 0) and the result is
`round(size_bytes / 1024, 2)`. -/
def get_exact_storage_size (fetch : Except DBErr (Option (Option Nat))) : ℚ :=
  match fetch with
  | .error _ => 0
  | .ok result =>
      let sizeBytes : Nat :=
        match result with
        | some (some n) => n
        | _ => 0
      pyRound2 ((sizeBytes : ℚ) / 1024)

/-- The per-method series of the `results` dict in `main`: the `'w'`,
`'r'`, `'s'` lists (src lines 256–260). -/
structure MethodSeries where
  w : List ℚ
  r : List ℚ
  s : List ℚ
deriving DecidableEq, Repr

/-- A Python dict from method name to series, as an association list. -/
def ResultsDict : Type := List (String × MethodSeries)

/-- The `KeyError` a Python dict subscript raises for a missing key. -/
inductive PyRunError where
  | keyError (key : String)
deriving DecidableEq, Repr

/-- The `results` dict as initialised in `main` (src lines 256–260): keys
`'Baseline'`, `'AES'`, `'Hybrid'`, each with empty series. -/
def initResults : ResultsDict :=
  [("Baseline", ⟨[], [], []⟩), ("AES", ⟨[], [], []⟩), ("Hybrid", ⟨[], [], []⟩)]

/-- Python dict subscript `results[k]`: raises `KeyError` when absent. -/
def dictGet (res : ResultsDict) (k : String) : Except PyRunError MethodSeries :=
  match res.lookup k with
  | some v => .ok v
  | none => .error (.keyError k)

/-- Replace the series stored under an existing key. -/
def dictSet (res : ResultsDict) (k : String) (v : MethodSeries) : ResultsDict :=
  res.map fun p => if p.1 = k then (k, v) else p

/-- One `results[k]['w'].append(w)` / `['r']` / `['s']` group, as performed
for each method inside the batch loop of `main`. -/
def appendSeries (res : ResultsDict) (k : String) (w r s : ℚ) :
    Except PyRunError ResultsDict := do
  let m ← dictGet res k
  return dictSet res k ⟨m.w ++ [w], m.r ++ [r], m.s ++ [s]⟩

/-- The result-recording steps of one batch iteration of `main`
(src lines 267–289), with the key strings the source uses: `'Baseline'`
(line 271), `'AES-Only'` (line 279), `'Hybrid'` (line 287). -/
def recordBatchResults (res : ResultsDict) (wB rB sB wA rA sA wH rH sH : ℚ) :
    Except PyRunError ResultsDict := do
  let res ← appendSeries res "Baseline" wB rB sB
  let res ← appendSeries res "AES-Only" wA rA sA
  let res ← appendSeries res "Hybrid" wH rH sH
  return res

/-- The datasets handed to the three runs and the rows each run writes, for
one batch iteration of `main`. -/
structure BatchTrace where
  baselineInput : List PatientRecord
  aesInput : List PatientRecord
  hybridInput : List PatientRecord
  baselineRows : List PatientRecord
  aesRows : List AesRow
  hybridRows : List HybridRow

/-- One batch iteration of `main` (src lines 262–289): the dataset is
generated once (`data = generate_dummy_data(count)`, line 265) and that
same value is passed to `run_baseline(data)`, `run_aes(data)` and
`run_hybrid(data)`; none of the runs mutates it (they only iterate over
it).  `gen` models the external generator, the remaining arguments the
random tapes of the two encrypting runs. -/
def runBatch (gen : Nat → List PatientRecord) (count : Nat) (aesKey : List Nat)
    (aesNs : Nat → List Nat) (kp : RSAKeyPair) (keySrc : Nat → List Nat)
    (hybNs : Nat → List Nat) (rpadSrc : Nat → Nat) : BatchTrace :=
  let data := gen count
  { baselineInput := data
    aesInput := data
    hybridInput := data
    baselineRows := data.map baselineProtect
    aesRows := aesEncRows aesKey aesNs 0 data
    hybridRows := hybridEncRows kp keySrc hybNs rpadSrc 0 data }

/-! Tamper model: flipping a single bit of a stored blob. -/

/-- Flip bit `k` of the byte at position `p` of a byte string. -/
def flipBit (l : List Nat) (p k : Nat) : List Nat :=
  l.set p (l.getD p 0 ^^^ 2 ^ k)

theorem xor_ne_self (a d : Nat) (hd : d ≠ 0) : a ^^^ d ≠ a := by
  intro heq
  apply hd
  have h2 : a ^^^ (a ^^^ d) = a ^^^ a := by rw [heq]
  rwa [← Nat.xor_assoc, Nat.xor_self, Nat.zero_xor] at h2

/-- Flipping a bit of a byte string changes it. -/
theorem set_flip_ne (l : List Nat) (p k : Nat) (hp : p < l.length) :
    l.set p (l.getD p 0 ^^^ 2 ^ k) ≠ l := by
  intro heq
  have h1 : (l.set p (l.getD p 0 ^^^ 2 ^ k))[p]? = some (l.getD p 0 ^^^ 2 ^ k) :=
    List.getElem?_set_self hp
  rw [heq] at h1
  have h2 : l[p]? = some (l.getD p 0) := by
    rw [List.getD_eq_getElem l 0 hp, List.getElem?_eq_getElem hp]
  rw [h2] at h1
  exact xor_ne_self _ _ (Nat.two_pow_pos k).ne' (Option.some.inj h1).symm

/-- How a single bit flip moves through `foldXorAt`: it XORs the fold whose
residue class contains the flipped position with the flipped bit, and
leaves every other fold unchanged. -/
theorem foldXorAt_set (j d : Nat) :
    ∀ (ct : List Nat) (i p : Nat), p < ct.length →
      foldXorAt j i (ct.set p (ct.getD p 0 ^^^ d))
        = if (i + p) % 16 = j then foldXorAt j i ct ^^^ d else foldXorAt j i ct := by
  intro ct
  induction ct with
  | nil => intro i p hp; simp at hp
  | cons b bs ih =>
      intro i p hp
      cases p with
      | zero =>
          simp only [List.getD_cons_zero, List.set_cons_zero, foldXorAt, Nat.add_zero]
          by_cases hij : i % 16 = j
          · simp only [if_pos hij]
            rw [Nat.xor_assoc, Nat.xor_comm d, ← Nat.xor_assoc]
          · simp only [if_neg hij]
      | succ q =>
          have hq : q < bs.length := by simpa using hp
          simp only [List.getD_cons_succ, List.set_cons_succ, foldXorAt]
          rw [ih (i + 1) q hq]
          have harith : i + 1 + q = i + (q + 1) := by omega
          rw [harith]
          by_cases hm : (i + (q + 1)) % 16 = j
          · simp only [if_pos hm]
            rw [Nat.xor_assoc]
          · simp only [if_neg hm]

/-- Flipping any bit of the ciphertext changes the required tag. -/
theorem gcmTag_flip_ne (key nonce ct : List Nat) (p k : Nat) (hp : p < ct.length) :
    gcmTag key nonce (ct.set p (ct.getD p 0 ^^^ 2 ^ k)) ≠ gcmTag key nonce ct := by
  intro heq
  have hj : p % 16 < 16 := Nat.mod_lt p (by omega)
  have h1 : (gcmTag key nonce (ct.set p (ct.getD p 0 ^^^ 2 ^ k)))[p % 16]? =
      (gcmTag key nonce ct)[p % 16]? := by rw [heq]
  unfold gcmTag at h1
  simp only [List.getElem?_map, List.getElem?_range hj, Option.map_some'] at h1
  have h2 := Option.some.inj h1
  rw [foldXorAt_set (p % 16) (2 ^ k) ct 0 p hp] at h2
  rw [if_pos (by omega : (0 + p) % 16 = p % 16)] at h2
  have h3 : foldXorAt (p % 16) 0 ct ^^^ 2 ^ k = foldXorAt (p % 16) 0 ct := by
    have h4 := congrArg (fun x => x ^^^ ksByte key nonce (1000 + p % 16)) h2
    simpa [Nat.xor_assoc, Nat.xor_self, Nat.xor_zero] using h4
  exact xor_ne_self _ _ (Nat.two_pow_pos k).ne' h3

/-- Evaluation of `revealField` on a blob given by its three regions. -/
theorem revealField_parts (key nonce tag ct : List Nat) (hn : nonce.length = 16)
    (ht : tag.length = 16) :
    revealField key (nonce ++ tag ++ ct)
      = if tag = gcmTag key nonce ct then .ok (xorKs key nonce 0 ct)
        else .error (.valueError "MAC check failed") := by
  have h32 : (nonce ++ tag).length = 32 := by rw [List.length_append, hn, ht]
  have htake : (nonce ++ tag ++ ct).take 16 = nonce := by
    rw [List.append_assoc, List.take_left' hn]
  have hdrop16 : ((nonce ++ tag ++ ct).drop 16).take 16 = tag := by
    rw [List.append_assoc, List.drop_left' hn, List.take_left' ht]
  have hdrop32 : (nonce ++ tag ++ ct).drop 32 = ct := List.drop_left' h32
  unfold revealField
  rw [htake, hdrop16, hdrop32]
  simp [hn]

/-- Flipping any bit in the tag region (bytes 16–31) of an encoded field
makes `reveal` fail with the MAC-verification error. -/
theorem revealField_flip_tag (key nonce pt : List Nat) (pos k : Nat) (hn : nonce.length = 16)
    (hlo : 16 ≤ pos) (hhi : pos < 32) :
    revealField key (flipBit (protectField key nonce pt) pos k)
      = .error (.valueError "MAC check failed") := by
  have htlen : (gcmTag key nonce (xorKs key nonce 0 pt)).length = 16 := gcmTag_length _ _ _
  have hnt : (nonce ++ gcmTag key nonce (xorKs key nonce 0 pt)).length = 32 := by
    rw [List.length_append, hn, htlen]
  have hflip : flipBit (protectField key nonce pt) pos k
      = nonce ++ (gcmTag key nonce (xorKs key nonce 0 pt)).set (pos - 16)
            ((gcmTag key nonce (xorKs key nonce 0 pt)).getD (pos - 16) 0 ^^^ 2 ^ k)
          ++ xorKs key nonce 0 pt := by
    unfold flipBit protectField
    rw [List.getD_append _ _ _ _ (by rw [hnt]; omega),
      List.getD_append_right _ _ _ _ (by rw [hn]; omega),
      List.set_append_left pos _ (by rw [hnt]; omega),
      List.set_append_right pos _ (by rw [hn]; omega), hn]
  rw [hflip, revealField_parts key nonce _ _ hn
    (by rw [List.length_set]; exact gcmTag_length _ _ _)]
  rw [if_neg (set_flip_ne _ (pos - 16) k (by rw [htlen]; omega))]

/-- Flipping any bit in the ciphertext region (bytes 32 and beyond) of an
encoded field makes `reveal` fail with the MAC-verification error. -/
theorem revealField_flip_ct (key nonce pt : List Nat) (pos k : Nat) (hn : nonce.length = 16)
    (hlo : 32 ≤ pos) (hhi : pos < 32 + pt.length) :
    revealField key (flipBit (protectField key nonce pt) pos k)
      = .error (.valueError "MAC check failed") := by
  have hctlen : (xorKs key nonce 0 pt).length = pt.length := xorKs_length key nonce 0 pt
  have hnt : (nonce ++ gcmTag key nonce (xorKs key nonce 0 pt)).length = 32 := by
    rw [List.length_append, hn, gcmTag_length]
  have hflip : flipBit (protectField key nonce pt) pos k
      = nonce ++ gcmTag key nonce (xorKs key nonce 0 pt)
          ++ (xorKs key nonce 0 pt).set (pos - 32)
            ((xorKs key nonce 0 pt).getD (pos - 32) 0 ^^^ 2 ^ k) := by
    unfold flipBit protectField
    rw [List.getD_append_right _ _ _ _ (by rw [hnt]; omega),
      List.set_append_right pos _ (by rw [hnt]; omega), hnt]
  rw [hflip, revealField_parts key nonce _ _ hn (gcmTag_length _ _ _)]
  rw [if_neg (Ne.symm (gcmTag_flip_ne key nonce _ (pos - 32) k (by rw [hctlen]; omega)))]

/-- A blob shorter than the 32-byte header never decodes: an empty blob
fails on the empty nonce, and a nonempty short blob fails the MAC check
(its tag region cannot be 16 bytes long), with the same errors the library
raises in the authentication-failure path. -/
theorem revealField_short (key blob : List Nat) (h : blob.length < 32) :
    revealField key blob
      = if blob.length = 0 then .error (.valueError "Nonce cannot be empty")
        else .error (.valueError "MAC check failed") := by
  have htag : ((blob.drop 16).take 16).length ≠ 16 := by
    rw [List.length_take, List.length_drop]
    omega
  have hne : ¬((blob.drop 16).take 16 = gcmTag key (blob.take 16) (blob.drop 32)) := by
    intro heq
    apply htag
    rw [heq, gcmTag_length]
  unfold revealField
  by_cases h0 : blob.length = 0
  · simp [List.length_take, h0]
  · rw [if_neg h0]
    rw [if_neg (by rw [List.length_take]; omega)]
    rw [if_neg hne]

/-! Round trips and structural lemmas for the two encrypting strategies. -/

theorem xorMask_xorMask (m : Nat) (l : List Nat) :
    (l.map fun b => b ^^^ m).map (fun b => b ^^^ m) = l := by
  induction l with
  | nil => rfl
  | cons a l ih => simp [ih, Nat.xor_assoc]

theorem rsaWrap_length (kp : RSAKeyPair) (rpad : Nat) (k : List Nat) (hk : k.length ≤ 254) :
    (rsaWrap kp rpad k).length = 256 := by
  simp [rsaWrap]
  omega

/-- Unwrapping a wrapped key with the matching private key recovers it. -/
theorem rsaUnwrap_rsaWrap (kp : RSAKeyPair) (rpad : Nat) (k : List Nat)
    (hk : k.length ≤ 254) :
    rsaUnwrap kp (rsaWrap kp rpad k) = .ok k := by
  unfold rsaUnwrap
  rw [if_pos (rsaWrap_length kp rpad k hk)]
  have h1 : (rsaWrap kp rpad k).headD 0 = k.length := rfl
  have h2 : (rsaWrap kp rpad k).tail
      = (k.map fun b => b ^^^ kp.mask % 256)
          ++ List.replicate (255 - k.length) (rpad % 256) := rfl
  rw [h1, h2, List.take_left' (by rw [List.length_map])]
  exact congrArg Except.ok (xorMask_xorMask _ k)

/-- Decoding a row encrypted by `run_aes` recovers the three fields. -/
theorem decodeAesRow_aesEncRow (key : List Nat) (ns : Nat → List Nat) (i : Nat)
    (r : PatientRecord) (hns : ∀ j, (ns j).length = 16) :
    decodeAesRow key (aesEncRow key ns i r) = .ok (r.name, r.email, r.notes) := by
  unfold decodeAesRow aesEncRow
  rw [revealField_protectField _ _ _ (hns _), revealField_protectField _ _ _ (hns _),
    revealField_protectField _ _ _ (hns _)]
  rfl

theorem bind_ok_reduce {ε α β : Type} (a : α) (f : α → Except ε β) :
    ((Except.ok a : Except ε α) >>= f) = f a := rfl

/-- Decoding a row encrypted by `run_hybrid` recovers the three fields. -/
theorem decodeHybridRow_hybridEncRow (kp : RSAKeyPair) (rowKey : List Nat)
    (ns : Nat → List Nat) (i rpad : Nat) (r : PatientRecord)
    (hrk : rowKey.length = 32) (hns : ∀ j, (ns j).length = 16) :
    decodeHybridRow kp (hybridEncRow kp rowKey ns i rpad r)
      = .ok (r.name, r.email, r.notes) := by
  unfold decodeHybridRow hybridEncRow
  rw [rsaUnwrap_rsaWrap kp rpad rowKey (by omega)]
  simp only [bind_ok_reduce]
  rw [revealField_protectField _ _ _ (hns _), revealField_protectField _ _ _ (hns _),
    revealField_protectField _ _ _ (hns _)]
  rfl

theorem aesEncRows_length (key : List Nat) (ns : Nat → List Nat) :
    ∀ (i : Nat) (data : List PatientRecord),
      (aesEncRows key ns i data).length = data.length := by
  intro i data
  induction data generalizing i with
  | nil => rfl
  | cons r rs ih => simp [aesEncRows, ih]

theorem totalEncodedFields_aesEncRows (key : List Nat) (ns : Nat → List Nat) :
    ∀ (i : Nat) (data : List PatientRecord),
      totalEncodedFields (aesEncRows key ns i data) = 3 * data.length := by
  intro i data
  induction data generalizing i with
  | nil => rfl
  | cons r rs ih =>
      simp [aesEncRows, totalEncodedFields, aesRowFields] at ih ⊢
      rw [ih (i + 1)]
      omega

/-- Position `i` of the rows written by `run_hybrid` (counting from tape
offset `s`) is record `i` encrypted under its own fresh key. -/
theorem hybridEncRows_getElem? (kp : RSAKeyPair) (keySrc : Nat → List Nat)
    (ns : Nat → List Nat) (rpadSrc : Nat → Nat) :
    ∀ (data : List PatientRecord) (s i : Nat),
      (hybridEncRows kp keySrc ns rpadSrc s data)[i]?
        = data[i]?.map fun r =>
            hybridEncRow kp (keySrc (s + i)) ns (s + i) (rpadSrc (s + i)) r := by
  intro data
  induction data with
  | nil => intro s i; simp [hybridEncRows]
  | cons r rs ih =>
      intro s i
      cases i with
      | zero => simp [hybridEncRows]
      | succ n =>
          have harith : s + 1 + n = s + (n + 1) := by omega
          simp only [hybridEncRows, List.getElem?_cons_succ]
          rw [ih (s + 1) n, harith]

theorem readOutcomes_append {ρ : Type}
    (dec : ρ → Except PyError (List Nat × List Nat × List Nat)) (l1 l2 : List ρ) :
    readOutcomes dec (l1 ++ l2) = readOutcomes dec l1 ++ readOutcomes dec l2 := by
  simp [readOutcomes]

/-- The read loop of `run_aes` leaves no observable state behind. -/
theorem readPhaseAes_eq_unit (key : List Nat) (rows : List AesRow) :
    readPhaseAes key rows = () := rfl

theorem pyRound2_zero : pyRound2 0 = 0 := by
  unfold pyRound2
  norm_num

/-! Concrete inputs used by the witnesses: a record from the spec's §8
scenario, a 16-byte nonce tape, a 32-byte AES key tape, an RSA pair. -/

def wKey : List Nat := [1, 2, 3]

def wNonce : List Nat := List.replicate 16 7

def wNs : Nat → List Nat := fun j => List.replicate 16 (j + 1)

def wRec : PatientRecord := ⟨[65, 108, 105, 99, 101], [97, 64, 120], [104, 105]⟩

def wRecB : PatientRecord := ⟨[66, 111, 98], [98, 64, 120], [121, 111]⟩

def wRecC : PatientRecord := ⟨[67, 121], [99, 64, 120], [111, 107]⟩

def wKp : RSAKeyPair := ⟨90⟩

def wRowKey : List Nat := List.replicate 32 5

def wKeySrc : Nat → List Nat := fun a => a :: List.replicate 31 0

def wRpadSrc : Nat → Nat := fun a => a + 3

def wData2 : List PatientRecord := [wRec, wRecB]

def wData3 : List PatientRecord := [wRec, wRecB, wRecC]

def wBadRow : AesRow := ⟨[9, 9], [1], [2]⟩

def wBadRowH : HybridRow := ⟨[9, 9], [1], [2], [4]⟩

/-! The claims. -/

/-- C1: the claim says the orchestrator records a benchmark result for
each of the three strategies and the run completes, the only fatal errors
being setup-level.  The code cannot: `main` initialises `results` with the
keys `Baseline`, `AES`, `Hybrid` (src lines 256–260) but stores the AES
run's measurements under `results['AES-Only']` (src lines 279–281), so the
first batch iteration raises `KeyError: 'AES-Only'` right after `run_aes`
returns, before any AES or Hybrid result is recorded.  This theorem
evaluates the recording steps of one batch at concrete measurements. -/
theorem claim1_results_keyerror :
    recordBatchResults initResults 1 2 3 4 5 6 7 8 9
      = .error (.keyError "AES-Only") := rfl

/-- C2: round trip for all three strategies.  Plaintext protect/reveal are
identities; for SymmetricAEAD, splitting `nonce‖tag‖ciphertext` at offsets
16 and 32 and decrypting with the same key and the embedded nonce returns
exactly the original field bytes, both for a single field and for a whole
row; for HybridEnvelope, unwrapping the stored key and decrypting each
field likewise recovers the record. -/
theorem claim2_roundtrip (key nonce pt rowKey : List Nat) (kp : RSAKeyPair)
    (ns : Nat → List Nat) (i rpad : Nat) (r : PatientRecord)
    (hn : nonce.length = 16) (hns : ∀ j, (ns j).length = 16)
    (hrk : rowKey.length = 32) :
    baselineReveal (baselineProtect r) = r
    ∧ revealField key (protectField key nonce pt) = .ok pt
    ∧ decodeAesRow key (aesEncRow key ns i r) = .ok (r.name, r.email, r.notes)
    ∧ decodeHybridRow kp (hybridEncRow kp rowKey ns i rpad r)
        = .ok (r.name, r.email, r.notes) :=
  ⟨rfl, revealField_protectField key nonce pt hn,
    decodeAesRow_aesEncRow key ns i r hns,
    decodeHybridRow_hybridEncRow kp rowKey ns i rpad r hrk hns⟩

/-- Witness for C2 at a concrete record, key, nonce tape and RSA pair. -/
theorem claim2_roundtrip_witness :
    baselineReveal (baselineProtect wRec) = wRec
    ∧ revealField wKey (protectField wKey wNonce [104, 105]) = .ok [104, 105]
    ∧ decodeAesRow wKey (aesEncRow wKey wNs 0 wRec) = .ok (wRec.name, wRec.email, wRec.notes)
    ∧ decodeHybridRow wKp (hybridEncRow wKp wRowKey wNs 0 3 wRec)
        = .ok (wRec.name, wRec.email, wRec.notes) :=
  claim2_roundtrip wKey wNonce [104, 105] wRowKey wKp wNs 0 3 wRec rfl (fun _ => rfl) rfl

/-- C3: every encoded field has the layout
`[16-byte nonce][16-byte tag][ciphertext]`; its length is 32 plus the
plaintext byte length, hence at least 33 for a non-empty field; a batch
produces 3 encoded fields per record, hence exactly 9 for 3 records. -/
theorem claim3_layout (key nonce pt : List Nat) (ns : Nat → List Nat) (i : Nat)
    (data : List PatientRecord) (hn : nonce.length = 16) :
    (protectField key nonce pt).take 16 = nonce
    ∧ ((protectField key nonce pt).drop 16).take 16
        = gcmTag key nonce (xorKs key nonce 0 pt)
    ∧ (protectField key nonce pt).drop 32 = xorKs key nonce 0 pt
    ∧ (protectField key nonce pt).length = 32 + pt.length
    ∧ (pt ≠ [] → 33 ≤ (protectField key nonce pt).length)
    ∧ totalEncodedFields (aesEncRows key ns i data) = 3 * data.length
    ∧ (data.length = 3 → totalEncodedFields (aesEncRows key ns i data) = 9) := by
  refine ⟨protectField_take_16 key nonce pt hn, protectField_tag key nonce pt hn,
    protectField_ct key nonce pt hn, protectField_length key nonce pt hn, ?_,
    totalEncodedFields_aesEncRows key ns i data, ?_⟩
  · intro hpt
    have h1 : 0 < pt.length := List.length_pos.mpr hpt
    have h2 := protectField_length key nonce pt hn
    omega
  · intro h3
    rw [totalEncodedFields_aesEncRows key ns i data, h3]

/-- Witness for C3: the 3-record scenario of §8 yields 9 encoded fields,
and a 2-byte field encodes to 34 ≥ 33 bytes with the fixed layout. -/
theorem claim3_layout_witness :
    (protectField wKey wNonce [104, 105]).take 16 = wNonce
    ∧ (protectField wKey wNonce [104, 105]).length = 32 + 2
    ∧ 33 ≤ (protectField wKey wNonce [104, 105]).length
    ∧ totalEncodedFields (aesEncRows wKey wNs 0 wData3) = 9 := by
  have h := claim3_layout wKey wNonce [104, 105] wNs 0 wData3 rfl
  exact ⟨h.1, h.2.2.2.1, h.2.2.2.2.1 (by decide), h.2.2.2.2.2.2 (by decide)⟩

/-- C4: flipping any bit in the tag region (bytes 16–31) or the
ciphertext region (bytes 32 and beyond) of an encoded field makes `reveal`
fail with the authentication (MAC-verification) error; it never returns a
successful result for such a tampered blob. -/
theorem claim4_tamper (key nonce pt : List Nat) (pos k : Nat)
    (hn : nonce.length = 16) (_hk : k < 8) :
    (16 ≤ pos → pos < 32 →
      revealField key (flipBit (protectField key nonce pt) pos k)
        = .error (.valueError "MAC check failed"))
    ∧ (32 ≤ pos → pos < 32 + pt.length →
      revealField key (flipBit (protectField key nonce pt) pos k)
        = .error (.valueError "MAC check failed"))
    ∧ ((16 ≤ pos ∧ pos < 32) ∨ (32 ≤ pos ∧ pos < 32 + pt.length) →
      ∀ v : List Nat,
        revealField key (flipBit (protectField key nonce pt) pos k) ≠ .ok v) := by
  refine ⟨fun hlo hhi => revealField_flip_tag key nonce pt pos k hn hlo hhi,
    fun hlo hhi => revealField_flip_ct key nonce pt pos k hn hlo hhi, ?_⟩
  rintro (⟨hlo, hhi⟩ | ⟨hlo, hhi⟩) v
  · rw [revealField_flip_tag key nonce pt pos k hn hlo hhi]
    simp
  · rw [revealField_flip_ct key nonce pt pos k hn hlo hhi]
    simp

/-- Witness for C4: one bit flip in the tag region (byte 20, bit 3) and
one in the ciphertext region (byte 33, bit 0) of a concrete encoded
field both make `reveal` fail with the authentication error. -/
theorem claim4_tamper_witness :
    revealField wKey (flipBit (protectField wKey wNonce [104, 105]) 20 3)
      = .error (.valueError "MAC check failed")
    ∧ revealField wKey (flipBit (protectField wKey wNonce [104, 105]) 33 0)
      = .error (.valueError "MAC check failed") :=
  ⟨(claim4_tamper wKey wNonce [104, 105] 20 3 rfl (by omega)).1 (by omega) (by omega),
    (claim4_tamper wKey wNonce [104, 105] 33 0 rfl (by omega)).2.1 (by omega) (by decide)⟩

/-- C5 (amended): during the read phase of either encrypting strategy, a
row whose decode fails is the only row affected — every row before and
after it is processed with its own outcome, and the phase itself runs to
completion (the loop's result is reached, no abort).  The source does NOT
maintain the skip counter the original claim asserts; see the
counterexample. -/
theorem claim5_skip (key : List Nat) (kp : RSAKeyPair) (pre post : List AesRow)
    (bad : AesRow) (preH postH : List HybridRow) (badH : HybridRow)
    (hbad : decodeOk (decodeAesRow key bad) = false)
    (hbadH : decodeOk (decodeHybridRow kp badH) = false) :
    readOutcomes (decodeAesRow key) (pre ++ bad :: post)
      = readOutcomes (decodeAesRow key) pre ++ false :: readOutcomes (decodeAesRow key) post
    ∧ readOutcomes (decodeHybridRow kp) (preH ++ badH :: postH)
      = readOutcomes (decodeHybridRow kp) preH
          ++ false :: readOutcomes (decodeHybridRow kp) postH
    ∧ readPhaseAes key (pre ++ bad :: post) = () := by
  refine ⟨?_, ?_, rfl⟩
  · simp [readOutcomes, hbad]
  · simp [readOutcomes, hbadH]

/-- Witness for C5 at a concrete good/bad row mix: the bad AES row and the
bad hybrid row are skipped, their neighbours decode. -/
theorem claim5_skip_witness :
    readOutcomes (decodeAesRow wKey) ([aesEncRow wKey wNs 0 wRec] ++ wBadRow :: [aesEncRow wKey wNs 1 wRecB])
      = readOutcomes (decodeAesRow wKey) [aesEncRow wKey wNs 0 wRec]
          ++ false :: readOutcomes (decodeAesRow wKey) [aesEncRow wKey wNs 1 wRecB]
    ∧ readOutcomes (decodeHybridRow wKp) ([] ++ wBadRowH :: [])
      = readOutcomes (decodeHybridRow wKp) [] ++ false :: readOutcomes (decodeHybridRow wKp) []
    ∧ readPhaseAes wKey ([aesEncRow wKey wNs 0 wRec] ++ wBadRow :: [aesEncRow wKey wNs 1 wRecB]) = () :=
  claim5_skip wKey wKp [aesEncRow wKey wNs 0 wRec] [aesEncRow wKey wNs 1 wRecB]
    wBadRow [] [] wBadRowH (by decide) (by decide)

/-- C5 counterexample to the skip-counting conjunct: the read loop of
`run_aes` (src lines 169–181) binds no surviving state — its result is the
same for a batch with zero skipped rows and for one with one skipped row,
so the number of skipped records is not internally counted and is not
observable from the phase.  `skippedAes` is the spec-required counter,
computed here from the decode semantics, not by the source. -/
theorem claim5_not_counted :
    readPhaseAes wKey [aesEncRow wKey wNs 0 wRec] = readPhaseAes wKey [wBadRow]
    ∧ skippedAes wKey [aesEncRow wKey wNs 0 wRec] = 0
    ∧ skippedAes wKey [wBadRow] = 1 :=
  ⟨rfl, by decide, by decide⟩

/-- C6 (amended): a blob shorter than the 32-byte header never decodes
successfully; but the code raises no distinct MalformedEncodingError — an
empty blob fails with the library's empty-nonce `ValueError` and a
nonempty short blob fails with exactly the same MAC-check `ValueError`
that tag-verification failure produces, and the read loops catch
everything with the same bare `except`. -/
theorem claim6_short (key blob : List Nat) (h : blob.length < 32) :
    decodeOk (revealField key blob) = false
    ∧ (blob = [] → revealField key blob = .error (.valueError "Nonce cannot be empty"))
    ∧ (blob ≠ [] → revealField key blob = .error (.valueError "MAC check failed")) := by
  have hshort := revealField_short key blob h
  refine ⟨?_, ?_, ?_⟩
  · rw [hshort]
    by_cases h0 : blob.length = 0 <;> simp [h0, decodeOk]
  · intro hb
    rw [hshort, if_pos (by simp [hb])]
  · intro hb
    rw [hshort, if_neg (by simpa [List.length_eq_zero] using hb)]

/-- Witness for C6 at a concrete 3-byte blob and the empty blob. -/
theorem claim6_short_witness :
    decodeOk (revealField wKey [0, 1, 2]) = false
    ∧ revealField wKey [0, 1, 2] = .error (.valueError "MAC check failed")
    ∧ revealField wKey [] = .error (.valueError "Nonce cannot be empty") :=
  ⟨(claim6_short wKey [0, 1, 2] (by decide)).1,
    (claim6_short wKey [0, 1, 2] (by decide)).2.2 (by decide),
    (claim6_short wKey [] (by decide)).2.1 rfl⟩

/-- C6 counterexample: the claim requires a MalformedEncodingError
distinct from the authentication error, but a short (3-byte) blob fails
with exactly the same error value that a tampered full blob produces —
the two causes are indistinguishable in the code. -/
theorem claim6_not_distinct :
    revealField wKey [0, 1, 2] = .error (.valueError "MAC check failed")
    ∧ revealField wKey (flipBit (protectField wKey wNonce [104, 105]) 20 3)
        = .error (.valueError "MAC check failed") :=
  ⟨rfl, rfl⟩

/-- C7: the tps computation (src line 312) returns 0 when `write_ms` is 0
(no division by zero) and `batch_size / (write_ms / 1000)` otherwise, for
any non-negative measured time. -/
theorem claim7_tps (count : Nat) (w : ℚ) (h : 0 ≤ w) :
    (w = 0 → computeTps count w = 0)
    ∧ (w ≠ 0 → computeTps count w = (count : ℚ) / (w / 1000)) := by
  constructor
  · intro h0
    simp [computeTps, h0]
  · intro hne
    have hpos : 0 < w := lt_of_le_of_ne h (Ne.symm hne)
    simp [computeTps, hpos]

/-- Witness for C7: zero write time gives tps 0; a 2 ms write of 1000
records gives 1000 / (2/1000) transactions per second. -/
theorem claim7_tps_witness :
    computeTps 1000 0 = 0
    ∧ computeTps 1000 2 = (1000 : ℚ) / (2 / 1000) :=
  ⟨(claim7_tps 1000 0 le_rfl).1 rfl,
    (claim7_tps 1000 2 (by norm_num)).2 (by norm_num)⟩

/-- C8: within a batch iteration of `main` the dataset is generated once
(src line 265) and the very same value — same records, same field
contents, same order — is the input of the Baseline, AES and Hybrid runs;
each run consumes exactly that dataset. -/
theorem claim8_fairness (gen : Nat → List PatientRecord) (count : Nat)
    (aesKey : List Nat) (aesNs : Nat → List Nat) (kp : RSAKeyPair)
    (keySrc : Nat → List Nat) (hybNs : Nat → List Nat) (rpadSrc : Nat → Nat) :
    (runBatch gen count aesKey aesNs kp keySrc hybNs rpadSrc).baselineInput = gen count
    ∧ (runBatch gen count aesKey aesNs kp keySrc hybNs rpadSrc).aesInput = gen count
    ∧ (runBatch gen count aesKey aesNs kp keySrc hybNs rpadSrc).hybridInput = gen count
    ∧ (runBatch gen count aesKey aesNs kp keySrc hybNs rpadSrc).baselineRows = gen count
    ∧ (runBatch gen count aesKey aesNs kp keySrc hybNs rpadSrc).aesRows
        = aesEncRows aesKey aesNs 0 (gen count)
    ∧ (runBatch gen count aesKey aesNs kp keySrc hybNs rpadSrc).hybridRows
        = hybridEncRows kp keySrc hybNs rpadSrc 0 (gen count) := by
  refine ⟨rfl, rfl, rfl, ?_, rfl, rfl⟩
  simp only [runBatch, show baselineProtect = id from rfl, List.map_id]

/-- C9: in `run_hybrid` each record is encrypted under its own fresh
32-byte key drawn at that record's position of the key tape: row `i` of
the written batch is exactly record `i`'s three fields protected under
`keySrc i` together with that key's wrapped form (and nothing else), and
fresh draws at distinct records give distinct keys. -/
theorem claim9_keys (kp : RSAKeyPair) (keySrc : Nat → List Nat)
    (ns : Nat → List Nat) (rpadSrc : Nat → Nat) (data : List PatientRecord)
    (i j : Nat) (hi : i < data.length) (_hj : j < data.length) (hij : i ≠ j)
    (hfresh : ∀ a b, a ≠ b → keySrc a ≠ keySrc b) :
    (hybridEncRows kp keySrc ns rpadSrc 0 data)[i]?
      = some (hybridEncRow kp (keySrc i) ns i (rpadSrc i) data[i])
    ∧ (hybridEncRows kp keySrc ns rpadSrc 0 data)[i]?
      = some { name := protectField (keySrc i) (ns (3 * i)) data[i].name
               email := protectField (keySrc i) (ns (3 * i + 1)) data[i].email
               notes := protectField (keySrc i) (ns (3 * i + 2)) data[i].notes
               encKey := rsaWrap kp (rpadSrc i) (keySrc i) }
    ∧ keySrc i ≠ keySrc j := by
  have h0 := hybridEncRows_getElem? kp keySrc ns rpadSrc data 0 i
  rw [Nat.zero_add, List.getElem?_eq_getElem hi] at h0
  exact ⟨h0, h0, hfresh i j hij⟩

/-- Witness for C9 at a 2-record batch with an injective key tape. -/
theorem claim9_keys_witness :
    (hybridEncRows wKp wKeySrc wNs wRpadSrc 0 wData2)[0]?
      = some (hybridEncRow wKp (wKeySrc 0) wNs 0 (wRpadSrc 0) wRec)
    ∧ (hybridEncRows wKp wKeySrc wNs wRpadSrc 0 wData2)[0]?
      = some { name := protectField (wKeySrc 0) (wNs 0) wRec.name
               email := protectField (wKeySrc 0) (wNs 1) wRec.email
               notes := protectField (wKeySrc 0) (wNs 2) wRec.notes
               encKey := rsaWrap wKp (wRpadSrc 0) (wKeySrc 0) }
    ∧ wKeySrc 0 ≠ wKeySrc 1 :=
  claim9_keys wKp wKeySrc wNs wRpadSrc wData2 0 1 (by decide) (by decide) (by decide)
    (fun a b hab heq => hab (by simpa using congrArg (fun l => l.headD 0) heq))

/-- C10: `get_exact_storage_size` returns 0.0 when the database query
fails with a `mysql.connector` error — the very value it returns for an
empty table (whose `SUM` is SQL `NULL`), so the two situations are
indistinguishable in the reported `storage_kb`. -/
theorem claim10_storage (e : DBErr) :
    get_exact_storage_size (.error e) = 0
    ∧ get_exact_storage_size (.ok (some none)) = 0
    ∧ get_exact_storage_size (.error e) = get_exact_storage_size (.ok (some none)) := by
  have h2 : get_exact_storage_size (.ok (some none)) = 0 := by
    have h3 : get_exact_storage_size (.ok (some none))
        = pyRound2 (((0 : Nat) : ℚ) / 1024) := rfl
    rw [h3]
    norm_num [pyRound2_zero]
  refine ⟨rfl, h2, ?_⟩
  rw [h2]
  rfl

/-- Witness for C10 at a concrete connection error. -/
theorem claim10_storage_witness :
    get_exact_storage_size (.error (.mk "Lost connection to MySQL server")) = 0
    ∧ get_exact_storage_size (.ok (some none)) = 0
    ∧ get_exact_storage_size (.error (.mk "Lost connection to MySQL server"))
        = get_exact_storage_size (.ok (some none)) :=
  claim10_storage (.mk "Lost connection to MySQL server")

end EncryptionExperiment
